import Mathlib

/-!
Verification of the TMC429 register-access driver (TMC429.c).

The driver is shallowly embedded: the SPI transport is an injected function
threaded through an explicit state type, telegrams are records of four byte
values, machine integers are modelled as `Nat`/`Int` with explicit masking
where the C code truncates, and the C `float` computations of `SetAMax` are
modelled as exact rational arithmetic (the scale factor is kept as an exact
numerator/denominator pair of naturals; bridge lemmas relate this to the
textbook `Rat` floor formula).
-/

/-- An SPI transport: given a transport state, a byte to send and the flag
telling whether this is the last byte of the transaction (chip select is
released after it), it returns the new state and the byte received.  This
models the user-supplied `ReadWriteSPI` function together with whatever
state the transport keeps. -/
def Spi (σ : Type) : Type := σ → ℕ → Bool → σ × ℕ

/-- One 32-bit SPI telegram: four bytes.  Byte 0 is the address/status byte,
bytes 1-3 are the register payload, MSB first. -/
structure Telegram where
  b0 : ℕ
  b1 : ℕ
  b2 : ℕ
  b3 : ℕ
deriving DecidableEq, Repr

/-- Embedding of `ReadWrite429`: four sequential single-byte transfers in
buffer order; the hold-the-bus flag (`FALSE`) is passed for the first three
bytes and the release flag (`TRUE`) only for the fourth; the four received
bytes are returned in the same order. -/
def ReadWrite429 {σ : Type} (spi : Spi σ) (s : σ) (w : Telegram) : σ × Telegram :=
  let p0 := spi s w.b0 false
  let p1 := spi p0.1 w.b1 false
  let p2 := spi p1.1 w.b2 false
  let p3 := spi p2.1 w.b3 true
  (p3.1, ⟨p0.2, p1.2, p2.2, p3.2⟩)

/-- A loopback transport used as a test double: it echoes every byte sent
and logs each call as a pair of the byte sent and the final-byte flag. -/
def spiLoopback : Spi (List (ℕ × Bool)) := fun s b last => (s ++ [(b, last)], b)

/-- Modelled from the spec: the header TMC429.h is not under src.  The spec
says byte 0 of a telegram is the register address with a read/write flag
bit; `TMC429_READ` is that flag bit, OR-ed into the address byte for read
accesses. -/
def TMC429_READ : ℕ := 0x01

/-- Modelled from the spec: the header TMC429.h is not under src.  Per-axis
register addresses combine a base address with the axis index encoded into
dedicated address bits; the read/write flag bit of every register address
is clear. -/
def TMC429_MOTOR (motor : ℕ) : ℕ := motor <<< 5

/-- Modelled from the spec: address byte of the packed reference-switch /
ramp-mode configuration register of an axis (TMC429.h is not under src). -/
def TMC429_IDX_REFCONF_RM (axis : ℕ) : ℕ := 0x14 ||| TMC429_MOTOR axis

/-- Modelled from the spec: address byte of the pulse-divider/ramp-divider
register of an axis (TMC429.h is not under src). -/
def TMC429_IDX_PULSEDIV_RAMPDIV (motor : ℕ) : ℕ := 0x18 ||| TMC429_MOTOR motor

/-- Modelled from the spec: address byte of the PMUL/PDIV register of an
axis (TMC429.h is not under src). -/
def TMC429_IDX_PMUL_PDIV (motor : ℕ) : ℕ := 0x12 ||| TMC429_MOTOR motor

/-- Modelled from the spec: address byte of the maximum-acceleration
register of an axis (TMC429.h is not under src). -/
def TMC429_IDX_AMAX (motor : ℕ) : ℕ := 0x0C ||| TMC429_MOTOR motor

/-- Request telegram of a read access: the address byte carries the read
flag; the payload bytes of a read request are ignored by the device (the C
code leaves them uninitialised), modelled as zero. -/
def readTelegram (addr : ℕ) : Telegram := ⟨addr ||| TMC429_READ, 0, 0, 0⟩

/-- Truncation of a C `int32_t` value to `uint8_t`, as performed by the
assignments to the `uint8_t` write buffers (reduction modulo 256; `%` on
`Int` is euclidean, so the result is the low byte of the two's complement
representation). -/
def toByteZ (v : ℤ) : ℕ := (v % 256).toNat

/-- Embedding of `Write429Bytes`: write three payload bytes to a register. -/
def Write429Bytes {σ : Type} (spi : Spi σ) (s : σ) (addr : ℕ) (bytes : ℕ × ℕ × ℕ) : σ :=
  (ReadWrite429 spi s ⟨addr, bytes.1, bytes.2.1, bytes.2.2⟩).1

/-- Embedding of `Write429Datagram`. -/
def Write429Datagram {σ : Type} (spi : Spi σ) (s : σ) (addr hi mid lo : ℕ) : σ :=
  (ReadWrite429 spi s ⟨addr, hi, mid, lo⟩).1

/-- Embedding of `Write429Zero`. -/
def Write429Zero {σ : Type} (spi : Spi σ) (s : σ) (addr : ℕ) : σ :=
  (ReadWrite429 spi s ⟨addr, 0, 0, 0⟩).1

/-- The telegram built by `Write429Short`: `Write[1] = 0`,
`Write[2] = Value >> 8` and `Write[3] = Value & 0xFF`, each truncated to a
byte by the `uint8_t` assignment.  The arithmetic right shift of the
`int32_t` value on a two's complement machine is floor division by 256,
which is euclidean `/` here; `Value & 0xFF` is `Value % 256`. -/
def Write429ShortTelegram (addr : ℕ) (v : ℤ) : Telegram :=
  ⟨addr, 0, toByteZ (v / 256), toByteZ (v % 256)⟩

/-- Embedding of `Write429Short` (the 16-bit write accessor; the header
alias `Write429U16` used by `SetAMax` names this function). -/
def Write429Short {σ : Type} (spi : Spi σ) (s : σ) (addr : ℕ) (v : ℤ) : σ :=
  (ReadWrite429 spi s (Write429ShortTelegram addr v)).1

/-- The telegram built by `Write429Int`: `Write[1] = Value >> 16`,
`Write[2] = Value >> 8`, `Write[3] = Value & 0xFF`, truncated to bytes. -/
def Write429IntTelegram (addr : ℕ) (v : ℤ) : Telegram :=
  ⟨addr, toByteZ (v / 65536), toByteZ (v / 256), toByteZ (v % 256)⟩

/-- Embedding of `Write429Int` (the 24-bit write accessor). -/
def Write429Int {σ : Type} (spi : Spi σ) (s : σ) (addr : ℕ) (v : ℤ) : σ :=
  (ReadWrite429 spi s (Write429IntTelegram addr v)).1

/-- Result of `Read429Bytes`: the status byte and the three payload bytes
`Bytes[0] = Read[1]`, `Bytes[1] = Read[2]`, `Bytes[2] = Read[3]`. -/
structure ReadResult where
  status : ℕ
  bytes0 : ℕ
  bytes1 : ℕ
  bytes2 : ℕ
deriving DecidableEq, Repr

/-- Embedding of `Read429Bytes`. -/
def Read429Bytes {σ : Type} (spi : Spi σ) (s : σ) (addr : ℕ) : σ × ReadResult :=
  let r := ReadWrite429 spi s (readTelegram addr)
  (r.1, ⟨r.2.b0, r.2.b1, r.2.b2, r.2.b3⟩)

/-- Embedding of `Read429SingleByte`: it returns `Read[Index+1]`.  The C
array access has no bounds check; out-of-range access is undefined
behaviour, so the access is modelled as an optional lookup into the 4-byte
response buffer. -/
def Read429SingleByte {σ : Type} (spi : Spi σ) (s : σ) (addr idx : ℕ) : σ × Option ℕ :=
  let r := ReadWrite429 spi s (readTelegram addr)
  (r.1, [r.2.b0, r.2.b1, r.2.b2, r.2.b3].get? (idx + 1))

/-- Reinterpretation of a nonnegative 32-bit pattern as a signed `int32_t`
value (two's complement). -/
def toSigned32 (x : ℕ) : ℤ := if x < 2 ^ 31 then (x : ℤ) else (x : ℤ) - 2 ^ 32

/-- The value computed by `Read429Int12` from the two low payload bytes:
`Result = (Read[2] << 8) | Read[3]`, and if bit 11 of `Result` is set the
bits 12..31 are set (`Result |= 0xFFFFF000`), making the `int32_t` result
negative. -/
def Read429Int12Value (b2 b3 : ℕ) : ℤ :=
  let r : ℕ := (b2 <<< 8) ||| b3
  if r &&& 0x800 ≠ 0 then toSigned32 (r ||| 0xFFFFF000) else (r : ℤ)

/-- Embedding of `Read429Int12`. -/
def Read429Int12 {σ : Type} (spi : Spi σ) (s : σ) (addr : ℕ) : σ × ℤ :=
  let r := ReadWrite429 spi s (readTelegram addr)
  (r.1, Read429Int12Value r.2.b2 r.2.b3)

/-- The value computed by `Read429Int24` from the three payload bytes, with
sign extension from bit 23 (`Result |= 0xFF000000`). -/
def Read429Int24Value (b1 b2 b3 : ℕ) : ℤ :=
  let r : ℕ := (b1 <<< 16) ||| (b2 <<< 8) ||| b3
  if r &&& 0x800000 ≠ 0 then toSigned32 (r ||| 0xFF000000) else (r : ℤ)

/-- Embedding of `Read429Int24`. -/
def Read429Int24 {σ : Type} (spi : Spi σ) (s : σ) (addr : ℕ) : σ × ℤ :=
  let r := ReadWrite429 spi s (readTelegram addr)
  (r.1, Read429Int24Value r.2.b1 r.2.b2 r.2.b3)

/-- Embedding of `Set429RampMode`: read the packed ramp-config register of
the axis, then write back `Write[1] = Read[1]`, `Write[2] = Read[2]` and
`Write[3] = RampMode`. -/
def Set429RampMode {σ : Type} (spi : Spi σ) (s : σ) (axis mode : ℕ) : σ :=
  let r := ReadWrite429 spi s ⟨TMC429_IDX_REFCONF_RM axis ||| TMC429_READ, 0, 0, 0⟩
  (ReadWrite429 spi r.1 ⟨TMC429_IDX_REFCONF_RM axis, r.2.b1, r.2.b2, mode⟩).1

/-- Embedding of `Set429SwitchMode`: same register as `Set429RampMode`, but
the write-back is `Write[1] = Read[1]`, `Write[2] = SwitchMode` and
`Write[3] = Read[3]`. -/
def Set429SwitchMode {σ : Type} (spi : Spi σ) (s : σ) (axis mode : ℕ) : σ :=
  let r := ReadWrite429 spi s ⟨TMC429_IDX_REFCONF_RM axis ||| TMC429_READ, 0, 0, 0⟩
  (ReadWrite429 spi r.1 ⟨TMC429_IDX_REFCONF_RM axis, r.2.b1, mode, r.2.b3⟩).1

/-- Decode of the pulse-divider sub-field of the combined divider byte:
`pulse_div = PulseRampDiv >> 4` (the high nibble). -/
def pulse_div (prd : ℕ) : ℕ := prd >>> 4

/-- Decode of the ramp-divider sub-field of the combined divider byte:
`ramp_div = PulseRampDiv & 0x0F` (the low nibble). -/
def ramp_div (prd : ℕ) : ℕ := prd &&& 0x0F

/-- The scale factor `p` of `SetAMax` as an exact rational, mirroring the
source expression shape: the masked acceleration divided by
`128 * (1 << (ramp_div - pulse_div))` when `ramp_div >= pulse_div`, and by
`128.0 / (1 << (pulse_div - ramp_div))` otherwise.  The C `float`
arithmetic is modelled as exact real (rational) arithmetic. -/
def pQ (amax prd : ℕ) : ℚ :=
  if ramp_div prd ≥ pulse_div prd then
    ((amax &&& 0x7FF : ℕ) : ℚ) / (128 * 2 ^ (ramp_div prd - pulse_div prd))
  else
    ((amax &&& 0x7FF : ℕ) : ℚ) / (128 / 2 ^ (pulse_div prd - ramp_div prd))

/-- The derated scale factor `p_reduced = p * 0.988` of `SetAMax` (the C
literal `0.988` modelled as the exact rational `988 / 1000`). -/
def pReducedQ (amax prd : ℕ) : ℚ := pQ amax prd * (988 / 1000)

/-- Exact numerator of `p_reduced` (see `pReducedQ`): `0.988 = 247/250`,
and in the `pulse_div > ramp_div` branch the power of two multiplies the
numerator. -/
def pReducedNum (amax prd : ℕ) : ℕ :=
  if ramp_div prd ≥ pulse_div prd then (amax &&& 0x7FF) * 247
  else (amax &&& 0x7FF) * 2 ^ (pulse_div prd - ramp_div prd) * 247

/-- Exact positive denominator of `p_reduced` (see `pReducedQ`). -/
def pReducedDen (prd : ℕ) : ℕ :=
  if ramp_div prd ≥ pulse_div prd then 128 * 2 ^ (ramp_div prd - pulse_div prd) * 250
  else 128 * 250

/-- The candidate multiplier of one iteration of the `SetAMax` search:
`pmul = (int32_t)(p_reduced * 8.0 * (1 << pdiv)) - 128`.  The cast
truncates toward zero; its operand is nonnegative, so it is the floor,
which for the exact rational `p_reduced` is natural-number division of the
numerator (times `8 * 2 ^ pdiv`) by the denominator. -/
def pmulAt (amax prd d : ℕ) : ℤ :=
  ((pReducedNum amax prd * 8 * 2 ^ d / pReducedDen prd : ℕ) : ℤ) - 128

/-- The range check of the `SetAMax` search: `0 <= pmul && pmul <= 127`. -/
def validPdiv (amax prd d : ℕ) : Prop :=
  0 ≤ pmulAt amax prd d ∧ pmulAt amax prd d ≤ 127

instance (amax prd : ℕ) : DecidablePred (validPdiv amax prd) := fun d =>
  inferInstanceAs (Decidable (0 ≤ pmulAt amax prd d ∧ pmulAt amax prd d ≤ 127))

/-- One iteration of the `SetAMax` search loop: if the candidate `pmul`
passes the range check, the state is overwritten with
`(pm, pd) = (pmul + 128, pdiv)`; otherwise it is kept. -/
def searchStep (amax prd : ℕ) (st : ℤ × ℤ) (d : ℕ) : ℤ × ℤ :=
  if validPdiv amax prd d then (pmulAt amax prd d + 128, (d : ℤ)) else st

/-- The `SetAMax` search loop: `pdiv` runs from 0 to 13 inclusive, starting
from the sentinel state `pm = pd = -1`. -/
def pmulPdivSearch (amax prd : ℕ) : ℤ × ℤ :=
  (List.range 14).foldl (searchStep amax prd) (-1, -1)

/-- The outputs of `SetAMax` that do not depend on the transport: the final
`pm`/`pd` values, the payload bytes written to the PMUL/PDIV register
(`Data[0] = 0`, `Data[1] = (uint8_t) pm`, `Data[2] = (uint8_t) pd`), the
value written to the AMAX register, and the return value. -/
structure AMaxResult where
  pm : ℤ
  pd : ℤ
  pmulPdivBytes : ℕ × ℕ × ℕ
  amaxValue : ℕ
  ret : ℕ
deriving DecidableEq, Repr

/-- The pure core of `SetAMax` as a function of the acceleration argument
and the pulse/ramp divider byte read from the device (`Data[1]`):
`AMax &= 0x7FF`, nibble decode, scale-factor search, byte truncation of the
results, return value 0. -/
def SetAMaxCore (amax prd : ℕ) : AMaxResult :=
  { pm := (pmulPdivSearch amax prd).1
    pd := (pmulPdivSearch amax prd).2
    pmulPdivBytes :=
      (0, toByteZ (pmulPdivSearch amax prd).1, toByteZ (pmulPdivSearch amax prd).2)
    amaxValue := amax &&& 0x7FF
    ret := 0 }

/-- Embedding of `SetAMax`: read the divider byte (`Data[1]` of the
pulse/ramp divider register), run the solver core, write the PMUL/PDIV
payload and the masked acceleration, and return 0. -/
def SetAMax {σ : Type} (spi : Spi σ) (s : σ) (motor amax : ℕ) : σ × ℕ :=
  let rd := Read429Bytes spi s (TMC429_IDX_PULSEDIV_RAMPDIV motor)
  let core := SetAMaxCore amax rd.2.bytes1
  let s2 := Write429Bytes spi rd.1 (TMC429_IDX_PMUL_PDIV motor) core.pmulPdivBytes
  let s3 := Write429Short spi s2 (TMC429_IDX_AMAX motor) (core.amaxValue : ℤ)
  (s3, core.ret)

/-- Modelled from the spec: the reference decode the spec describes for
`Read429Int12` ("extract the low 12 bits of the 2 low payload bytes,
sign-extend using bit 11 as sign"), used to compare the code's decode
against the spec's words. -/
def specInt12SignExtend (b2 b3 : ℕ) : ℤ :=
  let v := (b2 * 256 + b3) % 4096
  if 2048 ≤ v then (v : ℤ) - 4096 else (v : ℤ)

/-- A stub TMC429 device used as the transport test double for the
read-modify-write setters: a register file of 3-byte registers (high, mid,
low), keyed by the register part of the address byte, plus the bytes of the
telegram received so far. -/
structure Dev where
  reg : ℕ → ℕ × ℕ × ℕ
  phase : ℕ
  addr : ℕ
  p1 : ℕ
  p2 : ℕ

/-- The register file key of an address byte: the address with the
read/write flag bit removed. -/
def regKey (addr : ℕ) : ℕ := addr >>> 1

/-- The idle state of the stub device with a given register file: no
telegram bytes received yet. -/
def devIdle (reg : ℕ → ℕ × ℕ × ℕ) : Dev := ⟨reg, 0, 0, 0, 0⟩

/-- Byte-level behaviour of the stub device: while a telegram is being
received it answers the status byte (0) first and then, for a read
telegram, the three bytes of the addressed register MSB first; when the
final byte of a write telegram arrives, the three payload bytes received
are committed to the addressed register; the transaction state resets when
the chip select is released. -/
def devSpi : Spi Dev := fun d b final =>
  let resp : ℕ :=
    if d.phase = 0 then 0
    else if d.addr &&& TMC429_READ ≠ 0 then
      if d.phase = 1 then (d.reg (regKey d.addr)).1
      else if d.phase = 2 then (d.reg (regKey d.addr)).2.1
      else (d.reg (regKey d.addr)).2.2
    else 0
  let d' : Dev :=
    if final then
      if d.phase = 3 ∧ d.addr &&& TMC429_READ = 0 then
        ⟨fun k => if k = regKey d.addr then (d.p1, d.p2, b) else d.reg k, 0, 0, 0, 0⟩
      else ⟨d.reg, 0, 0, 0, 0⟩
    else if d.phase = 0 then ⟨d.reg, 1, b, 0, 0⟩
    else if d.phase = 1 then ⟨d.reg, 2, d.addr, b, 0⟩
    else ⟨d.reg, 3, d.addr, d.p1, b⟩
  (d', resp)

/-- Helper: if no index below `n` passes the range check, the search fold
leaves the state unchanged. -/
theorem foldl_searchStep_of_none (amax prd : ℕ) :
    ∀ (n : ℕ) (st : ℤ × ℤ), (∀ d, d < n → ¬ validPdiv amax prd d) →
      (List.range n).foldl (searchStep amax prd) st = st := by
  intro n
  induction n with
  | zero => intro st _; rfl
  | succ m ih =>
    intro st h
    rw [List.range_succ, List.foldl_append, ih st (fun d hd => h d (by omega))]
    simp only [List.foldl_cons, List.foldl_nil]
    unfold searchStep
    rw [if_neg (h m (by omega))]

/-- Helper: if some index below `n` passes the range check, the search fold
ends at the largest passing index below `n`, regardless of the start
state. -/
theorem foldl_searchStep_of_valid (amax prd : ℕ) :
    ∀ (n : ℕ) (st : ℤ × ℤ) (d : ℕ), d < n → validPdiv amax prd d →
      (List.range n).foldl (searchStep amax prd) st =
        (pmulAt amax prd (Nat.findGreatest (validPdiv amax prd) (n - 1)) + 128,
         ((Nat.findGreatest (validPdiv amax prd) (n - 1) : ℕ) : ℤ)) := by
  intro n
  induction n with
  | zero => intro st d hd hv; exact absurd hd (by omega)
  | succ m ih =>
    intro st d hd hv
    rw [List.range_succ, List.foldl_append]
    simp only [List.foldl_cons, List.foldl_nil]
    by_cases hm : validPdiv amax prd m
    · unfold searchStep
      rw [if_pos hm, Nat.succ_sub_one, Nat.findGreatest_eq hm]
    · have hdm : d < m := by
        rcases Nat.lt_succ_iff_lt_or_eq.mp hd with h | h
        · exact h
        · exact absurd (h ▸ hv) hm
      rw [ih st d hdm hv]
      unfold searchStep
      rw [if_neg hm, Nat.succ_sub_one]
      obtain ⟨k, rfl⟩ : ∃ k, m = k + 1 := ⟨m - 1, by omega⟩
      rw [Nat.findGreatest_succ, if_neg hm, Nat.succ_sub_one]

/-- Bridge lemma: the exact numerator/denominator pair of the embedding
represents exactly the source-shaped rational `p_reduced = p * 0.988`. -/
theorem pReducedQ_eq_num_div_den (amax prd : ℕ) :
    pReducedQ amax prd = (pReducedNum amax prd : ℚ) / (pReducedDen prd : ℚ) := by
  unfold pReducedQ pQ pReducedNum pReducedDen
  by_cases h : ramp_div prd ≥ pulse_div prd
  · rw [if_pos h, if_pos h, if_pos h]
    push_cast
    rw [div_mul_div_comm, div_eq_div_iff (by positivity) (by positivity)]
    ring
  · rw [if_neg h, if_neg h, if_neg h]
    push_cast
    rw [div_div_eq_mul_div, div_mul_div_comm, div_eq_div_iff (by positivity) (by positivity)]
    ring

/-- Bridge lemma: the integer candidate `pmulAt` is exactly the claim's
`floor(p_reduced * 8 * 2 ^ pdiv) - 128` over the exact rationals. -/
theorem pmulAt_eq_floor (amax prd d : ℕ) :
    pmulAt amax prd d = ⌊pReducedQ amax prd * 8 * 2 ^ d⌋ - 128 := by
  rw [pReducedQ_eq_num_div_den]
  have h2 : (pReducedNum amax prd : ℚ) / (pReducedDen prd : ℚ) * 8 * 2 ^ d =
      (((pReducedNum amax prd * 8 * 2 ^ d : ℕ) : ℤ) : ℚ) / ((pReducedDen prd : ℕ) : ℚ) := by
    push_cast
    ring
  rw [h2, Rat.floor_intCast_div_natCast]
  unfold pmulAt
  rw [Int.natCast_div]

/-- Helper: masking with `0x7FF` is reduction modulo 2048. -/
theorem and_0x7FF_eq_mod (n : ℕ) : n &&& 0x7FF = n % 2048 := by
  have h := Nat.and_pow_two_sub_one_eq_mod n 11
  norm_num at h
  exact h

/-- C1: for every AMax input and every pulse/ramp divider byte, the SetAMax
search iterates pdiv over 0..13 computing `pmul = floor(p_reduced * 8 *
2 ^ pdiv) - 128` (see `pmulAt_eq_floor`), and among all pdiv values whose
pmul lies in 0..127 inclusive it records `(pm = pmul + 128, pd = pdiv)` for
the candidate with the largest such pdiv: later valid candidates overwrite
earlier ones. -/
theorem SetAMax_keeps_largest_valid_pdiv (amax prd d : ℕ) (hd : d ≤ 13)
    (hv : validPdiv amax prd d) :
    ∃ dmax : ℕ, dmax ≤ 13 ∧ validPdiv amax prd dmax ∧
      (∀ e, e ≤ 13 → validPdiv amax prd e → e ≤ dmax) ∧
      (SetAMaxCore amax prd).pm = pmulAt amax prd dmax + 128 ∧
      (SetAMaxCore amax prd).pd = ((dmax : ℕ) : ℤ) := by
  have hs := foldl_searchStep_of_valid amax prd 14 (-1, -1) d (by omega) hv
  refine ⟨Nat.findGreatest (validPdiv amax prd) 13, Nat.findGreatest_le 13,
    Nat.findGreatest_spec hd hv, fun e he hve => Nat.le_findGreatest he hve, ?_, ?_⟩
  · show (pmulPdivSearch amax prd).1 = _
    unfold pmulPdivSearch
    rw [hs]
  · show (pmulPdivSearch amax prd).2 = _
    unfold pmulPdivSearch
    rw [hs]

/-- C1 witness: for AMax 1000 and divider byte 0x76 the index 1 is a valid
candidate, and the recorded pair is the one of the largest valid index. -/
theorem SetAMax_keeps_largest_valid_pdiv_witness :
    ∃ dmax : ℕ, dmax ≤ 13 ∧ validPdiv 1000 118 dmax ∧
      (∀ e, e ≤ 13 → validPdiv 1000 118 e → e ≤ dmax) ∧
      (SetAMaxCore 1000 118).pm = pmulAt 1000 118 dmax + 128 ∧
      (SetAMaxCore 1000 118).pd = ((dmax : ℕ) : ℤ) :=
  SetAMax_keeps_largest_valid_pdiv 1000 118 1 (by decide) (by decide)

/-- C2: when no candidate pdiv in 0..13 yields a pmul in 0..127, `pm` and
`pd` keep their sentinel value -1, the PMUL/PDIV payload written is the
8-bit truncation of -1 (0xFF) in both bytes, and SetAMax still returns 0;
moreover SetAMax returns 0 for every input. -/
theorem SetAMax_sentinel_and_always_zero {σ : Type} (spi : Spi σ) (s : σ)
    (motor amax prd : ℕ)
    (hnone : ∀ d, d ≤ 13 → ¬ validPdiv amax prd d) :
    (SetAMaxCore amax prd).pm = -1 ∧ (SetAMaxCore amax prd).pd = -1 ∧
    (SetAMaxCore amax prd).pmulPdivBytes = (0, 255, 255) ∧
    (SetAMaxCore amax prd).ret = 0 ∧ (SetAMax spi s motor amax).2 = 0 := by
  have hs : pmulPdivSearch amax prd = (-1, -1) :=
    foldl_searchStep_of_none amax prd 14 (-1, -1) (fun d hd => hnone d (by omega))
  refine ⟨?_, ?_, ?_, rfl, rfl⟩
  · show (pmulPdivSearch amax prd).1 = -1
    rw [hs]
  · show (pmulPdivSearch amax prd).2 = -1
    rw [hs]
  · show (0, toByteZ (pmulPdivSearch amax prd).1, toByteZ (pmulPdivSearch amax prd).2) =
      (0, 255, 255)
    rw [hs]
    decide

/-- C2 witness: AMax 0 with divider byte 0 has no valid candidate (the
scale factor is 0, so every pmul is -128), and the sentinel bytes 0xFF are
written while 0 is returned. -/
theorem SetAMax_sentinel_and_always_zero_witness :
    (SetAMaxCore 0 0).pm = -1 ∧ (SetAMaxCore 0 0).pd = -1 ∧
    (SetAMaxCore 0 0).pmulPdivBytes = (0, 255, 255) ∧
    (SetAMaxCore 0 0).ret = 0 ∧ (SetAMax spiLoopback [] 0 0).2 = 0 :=
  SetAMax_sentinel_and_always_zero spiLoopback [] 0 0 0 (by decide)

/-- C3 counterexample: the claim says the acceleration used and written is
`min(AMax, 2047)` for inputs above the range, but `AMax &= 0x7FF` masks:
at AMax 2048 the value used is 0, not 2047. -/
theorem SetAMax_mask_counterexample :
    (SetAMaxCore 2048 118).amaxValue = 0 ∧ min 2048 2047 = 2047 ∧
    (SetAMaxCore 2048 118).amaxValue ≠ min 2048 2047 := by decide

/-- C3 amended: the acceleration value used in the scale-factor computation
and written to the AMax register is AMax masked to the low 11 bits, i.e.
`AMax mod 2048` (which agrees with AMax itself on the documented 0..2047
range but wraps rather than clamps above it). -/
theorem SetAMax_amax_masked (amax prd : ℕ) (h : amax < 2048) :
    (SetAMaxCore amax prd).amaxValue = amax % 2048 ∧
    (SetAMaxCore amax prd).amaxValue = amax ∧
    (∀ a : ℕ, (SetAMaxCore a prd).amaxValue = a % 2048 ∧
      pReducedQ a prd = pReducedQ (a % 2048) prd) := by
  have hmask : ∀ a : ℕ, (SetAMaxCore a prd).amaxValue = a % 2048 := by
    intro a
    show a &&& 0x7FF = a % 2048
    exact and_0x7FF_eq_mod a
  refine ⟨hmask amax, ?_, fun a => ⟨hmask a, ?_⟩⟩
  · rw [hmask amax, Nat.mod_eq_of_lt h]
  · unfold pReducedQ pQ
    rw [and_0x7FF_eq_mod a, and_0x7FF_eq_mod (a % 2048), Nat.mod_mod_of_dvd a (dvd_refl 2048)]

/-- C3 amended witness: at AMax 1000 (inside the documented range) the
masked value is 1000 itself. -/
theorem SetAMax_amax_masked_witness :
    (SetAMaxCore 1000 118).amaxValue = 1000 % 2048 ∧
    (SetAMaxCore 1000 118).amaxValue = 1000 ∧
    (∀ a : ℕ, (SetAMaxCore a 118).amaxValue = a % 2048 ∧
      pReducedQ a 118 = pReducedQ (a % 2048) 118) :=
  SetAMax_amax_masked 1000 118 (by decide)

/-- C5: ReadWrite429 performs exactly four sequential single-byte transfers
in buffer order, passing the hold flag (false) for the first three bytes
and the release flag (true) only for the fourth, and stores the four
received bytes in the same order; against the loopback transport the read
telegram equals the write telegram. -/
theorem ReadWrite429_four_transfers (w : Telegram) :
    ReadWrite429 spiLoopback [] w =
      ([(w.b0, false), (w.b1, false), (w.b2, false), (w.b3, true)], w) := rfl

/-- C4 counterexample: the claim says the decode extracts the low 12 bits
of the two payload bytes, but the code does not mask the high nibble of
`Read[2]`: on payload bytes (0x10, 0x00) the code returns 4096 while the
low-12-bit sign-extended value is 0. -/
theorem Read429Int12_not_low12_counterexample :
    Read429Int12Value 16 0 = 4096 ∧ specInt12SignExtend 16 0 = 0 ∧
    Read429Int12Value 16 0 ≠ specInt12SignExtend 16 0 := by decide

set_option maxRecDepth 100000 in
/-- C4 amended: for response payload byte pairs that encode a 12-bit value
(high payload byte below 0x10), Read429Int12 returns the low 12 bits
sign-extended using bit 11 as the sign bit (values at least 0x800 become
negative); in particular (0x0F, 0xFF) decodes to -1 and (0x00, 0x01)
decodes to 1. -/
theorem Read429Int12_low12_signextend (b2 b3 : ℕ) (h2 : b2 < 16) (h3 : b3 < 256) :
    Read429Int12Value b2 b3 = specInt12SignExtend b2 b3 ∧
    Read429Int12Value 15 255 = -1 ∧ Read429Int12Value 0 1 = 1 := by
  have H : ∀ x, x < 16 → ∀ y, y < 256 → Read429Int12Value x y = specInt12SignExtend x y := by
    decide
  exact ⟨H b2 h2 b3 h3, by decide, by decide⟩

/-- C4 amended witness: the boundary pair (0x0F, 0xFF). -/
theorem Read429Int12_low12_signextend_witness :
    Read429Int12Value 15 255 = specInt12SignExtend 15 255 ∧
    Read429Int12Value 15 255 = -1 ∧ Read429Int12Value 0 1 = 1 :=
  Read429Int12_low12_signextend 15 255 (by decide) (by decide)

/-- Helper: dividing the remainder modulo `D * N` by `D` gives the quotient
by `D` reduced modulo `N` (all euclidean operations, positive divisors). -/
theorem emod_mul_ediv (v : ℤ) {D N : ℤ} (hD : 0 < D) (hN : 0 < N) :
    v % (D * N) / D = v / D % N := by
  have hDN : 0 < D * N := mul_pos hD hN
  have h0 : 0 ≤ v % (D * N) := Int.emod_nonneg v (ne_of_gt hDN)
  have h1 : v % (D * N) < D * N := Int.emod_lt_of_pos v hDN
  have hv : v = v % (D * N) + N * (v / (D * N)) * D := by
    conv_lhs => rw [← Int.emod_add_ediv v (D * N)]
    ring
  have hdiv : v / D = v % (D * N) / D + N * (v / (D * N)) := by
    conv_lhs => rw [hv]
    exact Int.add_mul_ediv_right _ _ (ne_of_gt hD)
  have hlt : v % (D * N) / D < N := by
    rw [Int.ediv_lt_iff_lt_mul hD]
    calc v % (D * N) < D * N := h1
    _ = N * D := mul_comm D N
  have hge : 0 ≤ v % (D * N) / D := Int.ediv_nonneg h0 (le_of_lt hD)
  rw [hdiv, Int.add_mul_emod_self_left, Int.emod_eq_of_lt hge hlt]

/-- C6: the 16-bit write accessor produces payload bytes (0, high(V),
low(V)) for V in 0..65535, the 24-bit accessor produces (high24(V), mid(V),
low(V)) for V in 0..2^24-1, and for wider values the payload bytes equal
those of V truncated modulo 2^16 (respectively 2^24). -/
theorem Write429_payload_bytes (addr : ℕ) (v : ℤ) (h0 : 0 ≤ v) (hv : v < 65536) :
    Write429ShortTelegram addr v = ⟨addr, 0, (v / 256).toNat, (v % 256).toNat⟩ ∧
    (∀ w : ℤ, 0 ≤ w → w < 16777216 →
      Write429IntTelegram addr w =
        ⟨addr, (w / 65536).toNat, (w / 256 % 256).toNat, (w % 256).toNat⟩) ∧
    (∀ w : ℤ, Write429ShortTelegram addr w = Write429ShortTelegram addr (w % 65536) ∧
      Write429IntTelegram addr w = Write429IntTelegram addr (w % 16777216)) := by
  refine ⟨?_, ?_, ?_⟩
  · have hb2 : toByteZ (v / 256) = (v / 256).toNat := by unfold toByteZ; omega
    have hb3 : toByteZ (v % 256) = (v % 256).toNat := by unfold toByteZ; omega
    unfold Write429ShortTelegram
    rw [hb2, hb3]
  · intro w hw0 hw1
    have hb1 : toByteZ (w / 65536) = (w / 65536).toNat := by unfold toByteZ; omega
    have hb2 : toByteZ (w / 256) = (w / 256 % 256).toNat := by unfold toByteZ; omega
    have hb3 : toByteZ (w % 256) = (w % 256).toNat := by unfold toByteZ; omega
    unfold Write429IntTelegram
    rw [hb1, hb2, hb3]
  · intro w
    have e1 : w % 65536 / 256 = w / 256 % 256 := by
      have h := emod_mul_ediv w (D := 256) (N := 256) (by norm_num) (by norm_num)
      norm_num at h
      exact h
    have e2 : w % 16777216 / 65536 = w / 65536 % 256 := by
      have h := emod_mul_ediv w (D := 65536) (N := 256) (by norm_num) (by norm_num)
      norm_num at h
      exact h
    have e3 : w % 16777216 / 256 = w / 256 % 65536 := by
      have h := emod_mul_ediv w (D := 256) (N := 65536) (by norm_num) (by norm_num)
      norm_num at h
      exact h
    have e4 : w % 65536 % 256 = w % 256 :=
      Int.emod_emod_of_dvd w (by norm_num)
    have e5 : w % 16777216 % 256 = w % 256 :=
      Int.emod_emod_of_dvd w (by norm_num)
    constructor
    · have hb2 : toByteZ (w / 256) = toByteZ (w % 65536 / 256) := by unfold toByteZ; omega
      have hb3 : toByteZ (w % 256) = toByteZ (w % 65536 % 256) := by unfold toByteZ; omega
      unfold Write429ShortTelegram
      rw [hb2, hb3]
    · have hb1 : toByteZ (w / 65536) = toByteZ (w % 16777216 / 65536) := by
        unfold toByteZ; omega
      have hb2 : toByteZ (w / 256) = toByteZ (w % 16777216 / 256) := by
        unfold toByteZ; omega
      have hb3 : toByteZ (w % 256) = toByteZ (w % 16777216 % 256) := by
        unfold toByteZ; omega
      unfold Write429IntTelegram
      rw [hb1, hb2, hb3]

/-- C6 witness: V = 0x1234 within the 16-bit range. -/
theorem Write429_payload_bytes_witness :
    Write429ShortTelegram 5 4660 = ⟨5, 0, ((4660 : ℤ) / 256).toNat, ((4660 : ℤ) % 256).toNat⟩ ∧
    (∀ w : ℤ, 0 ≤ w → w < 16777216 →
      Write429IntTelegram 5 w =
        ⟨5, (w / 65536).toNat, (w / 256 % 256).toNat, (w % 256).toNat⟩) ∧
    (∀ w : ℤ, Write429ShortTelegram 5 w = Write429ShortTelegram 5 (w % 65536) ∧
      Write429IntTelegram 5 w = Write429IntTelegram 5 (w % 16777216)) :=
  Write429_payload_bytes 5 4660 (by decide) (by decide)

/-- C8 counterexample: the divider byte 0x76 decodes to pulse_div = 7 (the
high nibble) and ramp_div = 6 (the low nibble), not to pulse_div = 6 and
ramp_div = 7 as the claim states. -/
theorem PulseRampDiv_decode_counterexample :
    pulse_div 118 = 7 ∧ ramp_div 118 = 6 ∧
    ¬ (pulse_div 118 = 6 ∧ ramp_div 118 = 7) := by decide

/-- C8 amended: the divider byte 0x76 decodes to pulse_div = 7 and
ramp_div = 6; for AMax = 1000 with that byte the solver selects
(pm, pd) = (247, 1); and the solver core is a pure function of AMax and the
divider byte, so every invocation with the same inputs yields the same
result. -/
theorem PulseRampDiv_decode_and_determinism :
    pulse_div 118 = 7 ∧ ramp_div 118 = 6 ∧
    (SetAMaxCore 1000 118).pm = 247 ∧ (SetAMaxCore 1000 118).pd = 1 ∧
    ∀ amax prd : ℕ, SetAMaxCore amax prd = SetAMaxCore amax prd :=
  ⟨by decide, by decide, by decide, by decide, fun _ _ => rfl⟩

/-- Helper: a full read telegram exchanged with the idle stub device
returns the three bytes of the addressed register (MSB first) after the
status byte, and leaves the device idle with its registers unchanged. -/
theorem devSpi_read_telegram (reg : ℕ → ℕ × ℕ × ℕ) (a x y z : ℕ)
    (ha : a &&& TMC429_READ ≠ 0) :
    ReadWrite429 devSpi (devIdle reg) ⟨a, x, y, z⟩ =
      (devIdle reg,
       ⟨0, (reg (regKey a)).1, (reg (regKey a)).2.1, (reg (regKey a)).2.2⟩) := by
  simp [ReadWrite429, devSpi, devIdle, ha]

/-- Helper: a full write telegram exchanged with the idle stub device
commits its three payload bytes to the addressed register and leaves the
device idle. -/
theorem devSpi_write_telegram (reg : ℕ → ℕ × ℕ × ℕ) (a x y z : ℕ)
    (ha : a &&& TMC429_READ = 0) :
    ReadWrite429 devSpi (devIdle reg) ⟨a, x, y, z⟩ =
      (devIdle (fun k => if k = regKey a then (x, y, z) else reg k),
       ⟨0, 0, 0, 0⟩) := by
  simp [ReadWrite429, devSpi, devIdle, ha]

/-- C7: against the stub device holding (h, m, old) in the packed
ramp-config register, Set429RampMode leaves the high and mid payload bytes
unchanged and replaces only the ramp-mode byte (the low payload byte),
Set429SwitchMode preserves payload bytes 1 and 3 and replaces only the
switch-mode byte (the middle payload byte), and other registers are
untouched. -/
theorem Set429Modes_preserve_other_bytes (reg : ℕ → ℕ × ℕ × ℕ) (axis mode k : ℕ)
    (haxis : axis < 3) :
    ((Set429RampMode devSpi (devIdle reg) axis mode).reg (regKey (TMC429_IDX_REFCONF_RM axis)) =
      ((reg (regKey (TMC429_IDX_REFCONF_RM axis))).1,
       (reg (regKey (TMC429_IDX_REFCONF_RM axis))).2.1, mode)) ∧
    ((Set429SwitchMode devSpi (devIdle reg) axis mode).reg (regKey (TMC429_IDX_REFCONF_RM axis)) =
      ((reg (regKey (TMC429_IDX_REFCONF_RM axis))).1, mode,
       (reg (regKey (TMC429_IDX_REFCONF_RM axis))).2.2)) ∧
    (k ≠ regKey (TMC429_IDX_REFCONF_RM axis) →
      (Set429RampMode devSpi (devIdle reg) axis mode).reg k = reg k ∧
      (Set429SwitchMode devSpi (devIdle reg) axis mode).reg k = reg k) := by
  interval_cases axis
  ·
    refine ⟨?_, ?_, fun hk => ⟨?_, ?_⟩⟩
    ·
      simp only [Set429RampMode]
      rw [devSpi_read_telegram reg _ _ _ _ (by decide)]
      simp only []
      rw [devSpi_write_telegram reg _ _ _ _ (by decide)]
      simp [devIdle, regKey, TMC429_READ, TMC429_IDX_REFCONF_RM, TMC429_MOTOR]
    ·
      simp only [Set429SwitchMode]
      rw [devSpi_read_telegram reg _ _ _ _ (by decide)]
      simp only []
      rw [devSpi_write_telegram reg _ _ _ _ (by decide)]
      simp [devIdle, regKey, TMC429_READ, TMC429_IDX_REFCONF_RM, TMC429_MOTOR]
    ·
      simp [regKey, TMC429_IDX_REFCONF_RM, TMC429_MOTOR] at hk
      simp only [Set429RampMode]
      rw [devSpi_read_telegram reg _ _ _ _ (by decide)]
      simp only []
      rw [devSpi_write_telegram reg _ _ _ _ (by decide)]
      simp [devIdle, regKey, TMC429_READ, TMC429_IDX_REFCONF_RM, TMC429_MOTOR, hk]
    ·
      simp [regKey, TMC429_IDX_REFCONF_RM, TMC429_MOTOR] at hk
      simp only [Set429SwitchMode]
      rw [devSpi_read_telegram reg _ _ _ _ (by decide)]
      simp only []
      rw [devSpi_write_telegram reg _ _ _ _ (by decide)]
      simp [devIdle, regKey, TMC429_READ, TMC429_IDX_REFCONF_RM, TMC429_MOTOR, hk]
  ·
    refine ⟨?_, ?_, fun hk => ⟨?_, ?_⟩⟩
    ·
      simp only [Set429RampMode]
      rw [devSpi_read_telegram reg _ _ _ _ (by decide)]
      simp only []
      rw [devSpi_write_telegram reg _ _ _ _ (by decide)]
      simp [devIdle, regKey, TMC429_READ, TMC429_IDX_REFCONF_RM, TMC429_MOTOR]
    ·
      simp only [Set429SwitchMode]
      rw [devSpi_read_telegram reg _ _ _ _ (by decide)]
      simp only []
      rw [devSpi_write_telegram reg _ _ _ _ (by decide)]
      simp [devIdle, regKey, TMC429_READ, TMC429_IDX_REFCONF_RM, TMC429_MOTOR]
    ·
      simp [regKey, TMC429_IDX_REFCONF_RM, TMC429_MOTOR] at hk
      simp only [Set429RampMode]
      rw [devSpi_read_telegram reg _ _ _ _ (by decide)]
      simp only []
      rw [devSpi_write_telegram reg _ _ _ _ (by decide)]
      simp [devIdle, regKey, TMC429_READ, TMC429_IDX_REFCONF_RM, TMC429_MOTOR, hk]
    ·
      simp [regKey, TMC429_IDX_REFCONF_RM, TMC429_MOTOR] at hk
      simp only [Set429SwitchMode]
      rw [devSpi_read_telegram reg _ _ _ _ (by decide)]
      simp only []
      rw [devSpi_write_telegram reg _ _ _ _ (by decide)]
      simp [devIdle, regKey, TMC429_READ, TMC429_IDX_REFCONF_RM, TMC429_MOTOR, hk]
  ·
    refine ⟨?_, ?_, fun hk => ⟨?_, ?_⟩⟩
    ·
      simp only [Set429RampMode]
      rw [devSpi_read_telegram reg _ _ _ _ (by decide)]
      simp only []
      rw [devSpi_write_telegram reg _ _ _ _ (by decide)]
      simp [devIdle, regKey, TMC429_READ, TMC429_IDX_REFCONF_RM, TMC429_MOTOR]
    ·
      simp only [Set429SwitchMode]
      rw [devSpi_read_telegram reg _ _ _ _ (by decide)]
      simp only []
      rw [devSpi_write_telegram reg _ _ _ _ (by decide)]
      simp [devIdle, regKey, TMC429_READ, TMC429_IDX_REFCONF_RM, TMC429_MOTOR]
    ·
      simp [regKey, TMC429_IDX_REFCONF_RM, TMC429_MOTOR] at hk
      simp only [Set429RampMode]
      rw [devSpi_read_telegram reg _ _ _ _ (by decide)]
      simp only []
      rw [devSpi_write_telegram reg _ _ _ _ (by decide)]
      simp [devIdle, regKey, TMC429_READ, TMC429_IDX_REFCONF_RM, TMC429_MOTOR, hk]
    ·
      simp [regKey, TMC429_IDX_REFCONF_RM, TMC429_MOTOR] at hk
      simp only [Set429SwitchMode]
      rw [devSpi_read_telegram reg _ _ _ _ (by decide)]
      simp only []
      rw [devSpi_write_telegram reg _ _ _ _ (by decide)]
      simp [devIdle, regKey, TMC429_READ, TMC429_IDX_REFCONF_RM, TMC429_MOTOR, hk]

/-- C7 witness: axis 0, register content (11, 22, 33), new mode byte 5. -/
theorem Set429Modes_preserve_other_bytes_witness :
    ((Set429RampMode devSpi (devIdle fun _ => (11, 22, 33)) 0 5).reg
        (regKey (TMC429_IDX_REFCONF_RM 0)) = (11, 22, 5)) ∧
    ((Set429SwitchMode devSpi (devIdle fun _ => (11, 22, 33)) 0 5).reg
        (regKey (TMC429_IDX_REFCONF_RM 0)) = (11, 5, 33)) ∧
    (0 ≠ regKey (TMC429_IDX_REFCONF_RM 0) →
      (Set429RampMode devSpi (devIdle fun _ => (11, 22, 33)) 0 5).reg 0 = (11, 22, 33) ∧
      (Set429SwitchMode devSpi (devIdle fun _ => (11, 22, 33)) 0 5).reg 0 = (11, 22, 33)) :=
  Set429Modes_preserve_other_bytes (fun _ => (11, 22, 33)) 0 5 0 (by decide)

/-- C9: for Index in 0..2, Read429SingleByte returns payload byte Index of
the register, which is response telegram byte Index + 1, and the lookup
into the 4-byte response buffer succeeds (is in bounds); for Index = 3 the
lookup is one past the last response byte and yields none. -/
theorem Read429SingleByte_in_bounds {σ : Type} (spi : Spi σ) (s : σ) (addr idx : ℕ)
    (h : idx ≤ 2) :
    ((Read429SingleByte spi s addr idx).2 =
      [(ReadWrite429 spi s (readTelegram addr)).2.b1,
       (ReadWrite429 spi s (readTelegram addr)).2.b2,
       (ReadWrite429 spi s (readTelegram addr)).2.b3].get? idx) ∧
    ((Read429SingleByte spi s addr idx).2.isSome = true) ∧
    ((Read429SingleByte spi s addr 3).2 = none) := by
  interval_cases idx <;> exact ⟨rfl, rfl, rfl⟩

/-- C9 witness: the loopback transport, address 7, Index 2. -/
theorem Read429SingleByte_in_bounds_witness :
    ((Read429SingleByte spiLoopback [] 7 2).2 =
      [(ReadWrite429 spiLoopback [] (readTelegram 7)).2.b1,
       (ReadWrite429 spiLoopback [] (readTelegram 7)).2.b2,
       (ReadWrite429 spiLoopback [] (readTelegram 7)).2.b3].get? 2) ∧
    ((Read429SingleByte spiLoopback [] 7 2).2.isSome = true) ∧
    ((Read429SingleByte spiLoopback [] 7 3).2 = none) :=
  Read429SingleByte_in_bounds spiLoopback [] 7 2 (by decide)

/-- C10: every read operation ORs TMC429_READ into the address byte of its
request telegram (shown on the logging loopback transport: the first byte
sent is the address with the read flag), while every write operation,
including the write-back phase of the two read-modify-write setters, sends
the bare address; the register addresses themselves have the read flag
clear. -/
theorem read_write_flag_discipline (addr b0 b1 b2 idx mode axis : ℕ) (v : ℤ)
    (haxis : axis < 3) :
    ((Read429Bytes spiLoopback [] addr).1.head? = some (addr ||| TMC429_READ, false)) ∧
    ((Read429SingleByte spiLoopback [] addr idx).1.head? = some (addr ||| TMC429_READ, false)) ∧
    ((Read429Int12 spiLoopback [] addr).1.head? = some (addr ||| TMC429_READ, false)) ∧
    ((Read429Int24 spiLoopback [] addr).1.head? = some (addr ||| TMC429_READ, false)) ∧
    ((Write429Bytes spiLoopback [] addr (b0, b1, b2)).head? = some (addr, false)) ∧
    ((Write429Datagram spiLoopback [] addr b0 b1 b2).head? = some (addr, false)) ∧
    ((Write429Zero spiLoopback [] addr).head? = some (addr, false)) ∧
    ((Write429Short spiLoopback [] addr v).head? = some (addr, false)) ∧
    ((Write429Int spiLoopback [] addr v).head? = some (addr, false)) ∧
    ((Set429RampMode spiLoopback [] axis mode).get? 0 =
      some (TMC429_IDX_REFCONF_RM axis ||| TMC429_READ, false)) ∧
    ((Set429RampMode spiLoopback [] axis mode).get? 4 =
      some (TMC429_IDX_REFCONF_RM axis, false)) ∧
    ((Set429SwitchMode spiLoopback [] axis mode).get? 0 =
      some (TMC429_IDX_REFCONF_RM axis ||| TMC429_READ, false)) ∧
    ((Set429SwitchMode spiLoopback [] axis mode).get? 4 =
      some (TMC429_IDX_REFCONF_RM axis, false)) ∧
    (TMC429_IDX_REFCONF_RM axis &&& TMC429_READ = 0) ∧
    (TMC429_IDX_PULSEDIV_RAMPDIV axis &&& TMC429_READ = 0) ∧
    (TMC429_IDX_PMUL_PDIV axis &&& TMC429_READ = 0) ∧
    (TMC429_IDX_AMAX axis &&& TMC429_READ = 0) := by
  refine ⟨rfl, rfl, rfl, rfl, rfl, rfl, rfl, rfl, rfl, rfl, rfl, rfl, rfl, ?_, ?_, ?_, ?_⟩ <;>
    interval_cases axis <;> rfl

/-- C10 witness: concrete instantiation at address 2, axis 0. -/
theorem read_write_flag_discipline_witness :
    ((Read429Bytes spiLoopback [] 2).1.head? = some (2 ||| TMC429_READ, false)) ∧
    ((Read429SingleByte spiLoopback [] 2 1).1.head? = some (2 ||| TMC429_READ, false)) ∧
    ((Read429Int12 spiLoopback [] 2).1.head? = some (2 ||| TMC429_READ, false)) ∧
    ((Read429Int24 spiLoopback [] 2).1.head? = some (2 ||| TMC429_READ, false)) ∧
    ((Write429Bytes spiLoopback [] 2 (9, 8, 7)).head? = some (2, false)) ∧
    ((Write429Datagram spiLoopback [] 2 9 8 7).head? = some (2, false)) ∧
    ((Write429Zero spiLoopback [] 2).head? = some (2, false)) ∧
    ((Write429Short spiLoopback [] 2 300).head? = some (2, false)) ∧
    ((Write429Int spiLoopback [] 2 300).head? = some (2, false)) ∧
    ((Set429RampMode spiLoopback [] 0 1).get? 0 =
      some (TMC429_IDX_REFCONF_RM 0 ||| TMC429_READ, false)) ∧
    ((Set429RampMode spiLoopback [] 0 1).get? 4 =
      some (TMC429_IDX_REFCONF_RM 0, false)) ∧
    ((Set429SwitchMode spiLoopback [] 0 1).get? 0 =
      some (TMC429_IDX_REFCONF_RM 0 ||| TMC429_READ, false)) ∧
    ((Set429SwitchMode spiLoopback [] 0 1).get? 4 =
      some (TMC429_IDX_REFCONF_RM 0, false)) ∧
    (TMC429_IDX_REFCONF_RM 0 &&& TMC429_READ = 0) ∧
    (TMC429_IDX_PULSEDIV_RAMPDIV 0 &&& TMC429_READ = 0) ∧
    (TMC429_IDX_PMUL_PDIV 0 &&& TMC429_READ = 0) ∧
    (TMC429_IDX_AMAX 0 &&& TMC429_READ = 0) :=
  read_write_flag_discipline 2 9 8 7 1 1 0 300 (by decide)
